import Mathlib

set_option maxHeartbeats 1000000
set_option linter.unusedVariables false
set_option linter.unnecessarySeqFocus false

/-!
Verification of the relay interop layer: the taxonomy wire codecs
(`src/interop.rs`), the header aggregator (`src/header.rs`), and the
response builder (`src/response.rs`), shallowly embedded in Lean.
-/

namespace Relay

/-- Wire document values (the tagged document representation produced and
consumed by the serde codecs; embeds `serde_json::Value`). -/
inductive JsonValue where
  | null
  | bool (b : Bool)
  | num (n : Int)
  | str (s : String)
  | arr (elems : List JsonValue)
  | obj (fields : List (String × JsonValue))

/-- A byte, as Rust `u8`. -/
abbrev Byte := Fin 256

/-- `Protocol` from `src/interop.rs`. -/
inductive Protocol where
  | Http10
  | Http11
  | Http2
  | Http3
deriving DecidableEq, Repr

/-- `MediaType` from `src/interop.rs`: eleven catalog entries plus the
`#[serde(other)]` unit fallback `Other`. -/
inductive MediaType where
  | TextPlain
  | TextHtml
  | TextCss
  | TextCsv
  | Json
  | JsonLd
  | Xml
  | TextXml
  | FormUrlEncoded
  | MultipartFormData
  | OctetStream
  | Other
deriving DecidableEq, Repr

/-- `FormValue` from `src/interop.rs`. -/
inductive FormValue where
  | Text (s : String)
  | File (filename : String) (content_type : MediaType) (data : List Byte)
deriving DecidableEq, Repr

/-- `FormData = HashMap<String, Vec<FormValue>>`, as an association list. -/
abbrev FormData := List (String × List FormValue)

/-- `ContentType` from `src/interop.rs`; field layout follows the source. -/
inductive ContentType where
  | Text (content : String) (media_type : MediaType)
  | Json (content : JsonValue) (media_type : MediaType)
  | Xml (content : String) (media_type : MediaType)
  | Form (content : FormData) (media_type : MediaType)
  | Binary (content : List Byte) (media_type : MediaType) (filename : Option String)
  | Multipart (content : FormData) (media_type : MediaType)
  | Urlencoded (content : List (String × String)) (media_type : MediaType)

/-- `DigestAlgorithm` from `src/interop.rs`. -/
inductive DigestAlgorithm where
  | Md5
  | Sha256
  | Sha512
deriving DecidableEq, Repr

/-- `DigestQop` from `src/interop.rs`. -/
inductive DigestQop where
  | Auth
  | AuthInt
deriving DecidableEq, Repr

/-- `AuthType` from `src/interop.rs`; the third optional string field
models the source field spelled like the Lean-reserved word for opacity. -/
inductive AuthType where
  | None
  | Basic (username : String) (password : String)
  | Bearer (token : String)
  | Digest (username : String) (password : String)
      (realm : Option String) (nonce : Option String) (opq : Option String)
      (algorithm : Option DigestAlgorithm) (qop : Option DigestQop)
      (nc : Option String) (cnonce : Option String)
deriving DecidableEq, Repr

/-- `CertificateType` from `src/interop.rs`. -/
inductive CertificateType where
  | Pem (cert : List Byte) (key : List Byte)
  | Pfx (data : List Byte) (password : String)
deriving DecidableEq, Repr

/-- `CertificateConfig` from `src/interop.rs`. -/
structure CertificateConfig where
  client : Option CertificateType
  ca : Option (List (List Byte))
deriving DecidableEq, Repr

/-- `SecurityConfig` from `src/interop.rs`. -/
structure SecurityConfig where
  certificates : Option CertificateConfig
  validate_certificates : Option Bool
  verify_host : Option Bool
  verify_peer : Option Bool
deriving DecidableEq, Repr

/-- `ProxyAuth` from `src/interop.rs`. -/
structure ProxyAuth where
  username : String
  password : String
deriving DecidableEq, Repr

/-- `ProxyConfig` from `src/interop.rs`. -/
structure ProxyConfig where
  url : String
  auth : Option ProxyAuth
deriving DecidableEq, Repr

/-- `time::OffsetDateTime`, embedded as an abstract instant; its wire codec
belongs to the external `time` crate and is modelled as a single number. -/
abbrev OffsetDateTime := Int

/-- `SameSite` from `src/interop.rs`. -/
inductive SameSite where
  | Strict
  | Lax
  | None
deriving DecidableEq, Repr

/-- `Cookie` from `src/interop.rs`. -/
structure Cookie where
  name : String
  value : String
  domain : Option String
  path : Option String
  expires : Option OffsetDateTime
  secure : Option Bool
  http_only : Option Bool
  same_site : Option SameSite
deriving DecidableEq, Repr

/-! ## Generic codec helpers -/

/-- Field lookup by name in a wire object (serde matches fields by name;
keys of an encoded object are unique, so first match suffices). -/
def lookupField (fields : List (String × JsonValue)) (key : String) : Option JsonValue :=
  (fields.find? (fun p => p.1 == key)).map (fun p => p.2)

/-- Decode every element of a list, failing if any element fails
(serde sequence semantics). -/
def mapOption (f : α → Option β) : List α → Option (List β)
  | [] => some []
  | a :: as =>
    match f a, mapOption f as with
    | some b, some bs => some (b :: bs)
    | _, _ => none

/-- serde `Option` serialization: `None` becomes `null`, `Some` is inlined. -/
def encodeOption (enc : α → JsonValue) : Option α → JsonValue
  | Option.none => .null
  | Option.some a => enc a

/-- serde `Option` deserialization: `null` is `None`, otherwise the payload. -/
def decodeOption (dec : JsonValue → Option α) : JsonValue → Option (Option α)
  | .null => some Option.none
  | j => (dec j).map Option.some

def decodeStr : JsonValue → Option String
  | .str s => some s
  | _ => none

def decodeBool : JsonValue → Option Bool
  | .bool b => some b
  | _ => none

def encodeByte (b : Byte) : JsonValue := .num (b.val : Int)

def decodeByte : JsonValue → Option Byte
  | .num n => if h : 0 ≤ n ∧ n < 256 then some ⟨n.toNat, by omega⟩ else none
  | _ => none

/-- serde sequence serialization. -/
def encodeList (enc : α → JsonValue) (xs : List α) : JsonValue := .arr (xs.map enc)

def decodeList (dec : JsonValue → Option α) : JsonValue → Option (List α)
  | .arr xs => mapOption dec xs
  | _ => none

/-- serde map (string-keyed) serialization, as an association list. -/
def encodeStrMap (enc : β → JsonValue) (m : List (String × β)) : JsonValue :=
  .obj (m.map (fun p => (p.1, enc p.2)))

def decodeStrMap (dec : JsonValue → Option β) : JsonValue → Option (List (String × β))
  | .obj fs => mapOption (fun p => (dec p.2).map (fun b => (p.1, b))) fs
  | _ => none

/-- Decode a named field of an object with the given payload decoder. -/
def fieldVal (dec : JsonValue → Option α) (fs : List (String × JsonValue))
    (key : String) : Option α :=
  (lookupField fs key).bind dec

/-! ## Taxonomy codecs (the serde attributes of `src/interop.rs`) -/

/-- Wire spelling of `Protocol` (`#[serde(rename = ...)]`). -/
def protocolWireName : Protocol → String
  | .Http10 => "http/1.0"
  | .Http11 => "http/1.1"
  | .Http2 => "http/2"
  | .Http3 => "http/3"

def encodeProtocol (v : Protocol) : JsonValue := .str (protocolWireName v)

def decodeProtocol : JsonValue → Option Protocol
  | .str "http/1.0" => some .Http10
  | .str "http/1.1" => some .Http11
  | .str "http/2" => some .Http2
  | .str "http/3" => some .Http3
  | _ => none

/-- Wire spelling of `MediaType`: the eleven `#[serde(rename = ...)]`
catalog strings; the `#[serde(other)]` unit variant serializes under its
plain variant name. -/
def mediaTypeWireName : MediaType → String
  | .TextPlain => "text/plain"
  | .TextHtml => "text/html"
  | .TextCss => "text/css"
  | .TextCsv => "text/csv"
  | .Json => "application/json"
  | .JsonLd => "application/ld+json"
  | .Xml => "application/xml"
  | .TextXml => "text/xml"
  | .FormUrlEncoded => "application/x-www-form-urlencoded"
  | .MultipartFormData => "multipart/form-data"
  | .OctetStream => "application/octet-stream"
  | .Other => "Other"

def encodeMediaType (v : MediaType) : JsonValue := .str (mediaTypeWireName v)

/-- `MediaType` deserialization: any string that is not a catalog spelling
falls back to `Other` (`#[serde(other)]`); non-string input fails. -/
def decodeMediaType : JsonValue → Option MediaType
  | .str "text/plain" => some .TextPlain
  | .str "text/html" => some .TextHtml
  | .str "text/css" => some .TextCss
  | .str "text/csv" => some .TextCsv
  | .str "application/json" => some .Json
  | .str "application/ld+json" => some .JsonLd
  | .str "application/xml" => some .Xml
  | .str "text/xml" => some .TextXml
  | .str "application/x-www-form-urlencoded" => some .FormUrlEncoded
  | .str "multipart/form-data" => some .MultipartFormData
  | .str "application/octet-stream" => some .OctetStream
  | .str _ => some .Other
  | _ => none

/-- `#[serde(rename)]` spellings of `DigestAlgorithm`. -/
def encodeDigestAlgorithm : DigestAlgorithm → JsonValue
  | .Md5 => .str "MD5"
  | .Sha256 => .str "SHA-256"
  | .Sha512 => .str "SHA-512"

def decodeDigestAlgorithm : JsonValue → Option DigestAlgorithm
  | .str "MD5" => some .Md5
  | .str "SHA-256" => some .Sha256
  | .str "SHA-512" => some .Sha512
  | _ => none

/-- `#[serde(rename_all = "kebab-case")]` spellings of `DigestQop`. -/
def encodeDigestQop : DigestQop → JsonValue
  | .Auth => .str "auth"
  | .AuthInt => .str "auth-int"

def decodeDigestQop : JsonValue → Option DigestQop
  | .str "auth" => some .Auth
  | .str "auth-int" => some .AuthInt
  | _ => none

/-- `SameSite` uses plain variant names on the wire. -/
def encodeSameSite : SameSite → JsonValue
  | .Strict => .str "Strict"
  | .Lax => .str "Lax"
  | .None => .str "None"

def decodeSameSite : JsonValue → Option SameSite
  | .str "Strict" => some .Strict
  | .str "Lax" => some .Lax
  | .str "None" => some .None
  | _ => none

/-- `FormValue` is an externally tagged union (serde default). -/
def encodeFormValue : FormValue → JsonValue
  | .Text s => .obj [("Text", .str s)]
  | .File filename content_type data =>
    .obj [("File", .obj [("filename", .str filename),
                         ("content_type", encodeMediaType content_type),
                         ("data", encodeList encodeByte data)])]

def decodeFormValue : JsonValue → Option FormValue
  | .obj [("Text", .str s)] => some (.Text s)
  | .obj [("File", .obj fs)] => do
    let filename ← fieldVal decodeStr fs "filename"
    let content_type ← fieldVal decodeMediaType fs "content_type"
    let data ← fieldVal (decodeList decodeByte) fs "data"
    pure (.File filename content_type data)
  | _ => none

/-- `ContentType` is internally tagged (`#[serde(tag = "kind",
rename_all = "snake_case")]`); payload fields sit at the same level,
with `media_type` renamed to `mediaType`. -/
def encodeContentType : ContentType → JsonValue
  | .Text content mt =>
    .obj [("kind", .str "text"), ("content", .str content),
          ("mediaType", encodeMediaType mt)]
  | .Json content mt =>
    .obj [("kind", .str "json"), ("content", content),
          ("mediaType", encodeMediaType mt)]
  | .Xml content mt =>
    .obj [("kind", .str "xml"), ("content", .str content),
          ("mediaType", encodeMediaType mt)]
  | .Form content mt =>
    .obj [("kind", .str "form"),
          ("content", encodeStrMap (encodeList encodeFormValue) content),
          ("mediaType", encodeMediaType mt)]
  | .Binary content mt filename =>
    .obj [("kind", .str "binary"), ("content", encodeList encodeByte content),
          ("mediaType", encodeMediaType mt),
          ("filename", encodeOption JsonValue.str filename)]
  | .Multipart content mt =>
    .obj [("kind", .str "multipart"),
          ("content", encodeStrMap (encodeList encodeFormValue) content),
          ("mediaType", encodeMediaType mt)]
  | .Urlencoded content mt =>
    .obj [("kind", .str "urlencoded"),
          ("content", encodeStrMap JsonValue.str content),
          ("mediaType", encodeMediaType mt)]

def decodeContentType : JsonValue → Option ContentType
  | .obj fs =>
    match lookupField fs "kind" with
    | some (.str "text") => do
      let c ← fieldVal decodeStr fs "content"
      let mt ← fieldVal decodeMediaType fs "mediaType"
      pure (.Text c mt)
    | some (.str "json") => do
      let c ← lookupField fs "content"
      let mt ← fieldVal decodeMediaType fs "mediaType"
      pure (.Json c mt)
    | some (.str "xml") => do
      let c ← fieldVal decodeStr fs "content"
      let mt ← fieldVal decodeMediaType fs "mediaType"
      pure (.Xml c mt)
    | some (.str "form") => do
      let c ← fieldVal (decodeStrMap (decodeList decodeFormValue)) fs "content"
      let mt ← fieldVal decodeMediaType fs "mediaType"
      pure (.Form c mt)
    | some (.str "binary") => do
      let c ← fieldVal (decodeList decodeByte) fs "content"
      let mt ← fieldVal decodeMediaType fs "mediaType"
      let filename ← fieldVal (decodeOption decodeStr) fs "filename"
      pure (.Binary c mt filename)
    | some (.str "multipart") => do
      let c ← fieldVal (decodeStrMap (decodeList decodeFormValue)) fs "content"
      let mt ← fieldVal decodeMediaType fs "mediaType"
      pure (.Multipart c mt)
    | some (.str "urlencoded") => do
      let c ← fieldVal (decodeStrMap decodeStr) fs "content"
      let mt ← fieldVal decodeMediaType fs "mediaType"
      pure (.Urlencoded c mt)
    | _ => none
  | _ => none

/-- `AuthType` is internally tagged (`#[serde(tag = "kind",
rename_all = "snake_case")]`). -/
def encodeAuthType : AuthType → JsonValue
  | .None => .obj [("kind", .str "none")]
  | .Basic u p =>
    .obj [("kind", .str "basic"), ("username", .str u), ("password", .str p)]
  | .Bearer t => .obj [("kind", .str "bearer"), ("token", .str t)]
  | .Digest u p realm nonce opq alg qop nc cnonce =>
    .obj [("kind", .str "digest"), ("username", .str u), ("password", .str p),
          ("realm", encodeOption JsonValue.str realm),
          ("nonce", encodeOption JsonValue.str nonce),
          ("opaque", encodeOption JsonValue.str opq),
          ("algorithm", encodeOption encodeDigestAlgorithm alg),
          ("qop", encodeOption encodeDigestQop qop),
          ("nc", encodeOption JsonValue.str nc),
          ("cnonce", encodeOption JsonValue.str cnonce)]

def decodeAuthType : JsonValue → Option AuthType
  | .obj fs =>
    match lookupField fs "kind" with
    | some (.str "none") => some .None
    | some (.str "basic") => do
      let u ← fieldVal decodeStr fs "username"
      let p ← fieldVal decodeStr fs "password"
      pure (.Basic u p)
    | some (.str "bearer") => do
      let t ← fieldVal decodeStr fs "token"
      pure (.Bearer t)
    | some (.str "digest") => do
      let u ← fieldVal decodeStr fs "username"
      let p ← fieldVal decodeStr fs "password"
      let realm ← fieldVal (decodeOption decodeStr) fs "realm"
      let nonce ← fieldVal (decodeOption decodeStr) fs "nonce"
      let opq ← fieldVal (decodeOption decodeStr) fs "opaque"
      let alg ← fieldVal (decodeOption decodeDigestAlgorithm) fs "algorithm"
      let qop ← fieldVal (decodeOption decodeDigestQop) fs "qop"
      let nc ← fieldVal (decodeOption decodeStr) fs "nc"
      let cnonce ← fieldVal (decodeOption decodeStr) fs "cnonce"
      pure (.Digest u p realm nonce opq alg qop nc cnonce)
    | _ => none
  | _ => none

/-- `CertificateType` is internally tagged (`#[serde(tag = "kind",
rename_all = "snake_case")]`). -/
def encodeCertificateType : CertificateType → JsonValue
  | .Pem cert key =>
    .obj [("kind", .str "pem"), ("cert", encodeList encodeByte cert),
          ("key", encodeList encodeByte key)]
  | .Pfx data password =>
    .obj [("kind", .str "pfx"), ("data", encodeList encodeByte data),
          ("password", .str password)]

def decodeCertificateType : JsonValue → Option CertificateType
  | .obj fs =>
    match lookupField fs "kind" with
    | some (.str "pem") => do
      let cert ← fieldVal (decodeList decodeByte) fs "cert"
      let key ← fieldVal (decodeList decodeByte) fs "key"
      pure (.Pem cert key)
    | some (.str "pfx") => do
      let data ← fieldVal (decodeList decodeByte) fs "data"
      let password ← fieldVal decodeStr fs "password"
      pure (.Pfx data password)
    | _ => none
  | _ => none

def encodeCertificateConfig (c : CertificateConfig) : JsonValue :=
  .obj [("client", encodeOption encodeCertificateType c.client),
        ("ca", encodeOption (encodeList (encodeList encodeByte)) c.ca)]

def decodeCertificateConfig : JsonValue → Option CertificateConfig
  | .obj fs => do
    let client ← fieldVal (decodeOption decodeCertificateType) fs "client"
    let ca ← fieldVal (decodeOption (decodeList (decodeList decodeByte))) fs "ca"
    pure ⟨client, ca⟩
  | _ => none

/-- `SecurityConfig` with its `#[serde(rename = ...)]` camelCase fields. -/
def encodeSecurityConfig (s : SecurityConfig) : JsonValue :=
  .obj [("certificates", encodeOption encodeCertificateConfig s.certificates),
        ("validateCertificates", encodeOption JsonValue.bool s.validate_certificates),
        ("verifyHost", encodeOption JsonValue.bool s.verify_host),
        ("verifyPeer", encodeOption JsonValue.bool s.verify_peer)]

def decodeSecurityConfig : JsonValue → Option SecurityConfig
  | .obj fs => do
    let certificates ← fieldVal (decodeOption decodeCertificateConfig) fs "certificates"
    let vc ← fieldVal (decodeOption decodeBool) fs "validateCertificates"
    let vh ← fieldVal (decodeOption decodeBool) fs "verifyHost"
    let vp ← fieldVal (decodeOption decodeBool) fs "verifyPeer"
    pure ⟨certificates, vc, vh, vp⟩
  | _ => none

def encodeProxyAuth (a : ProxyAuth) : JsonValue :=
  .obj [("username", .str a.username), ("password", .str a.password)]

def decodeProxyAuth : JsonValue → Option ProxyAuth
  | .obj fs => do
    let u ← fieldVal decodeStr fs "username"
    let p ← fieldVal decodeStr fs "password"
    pure ⟨u, p⟩
  | _ => none

def encodeProxyConfig (c : ProxyConfig) : JsonValue :=
  .obj [("url", .str c.url), ("auth", encodeOption encodeProxyAuth c.auth)]

def decodeProxyConfig : JsonValue → Option ProxyConfig
  | .obj fs => do
    let url ← fieldVal decodeStr fs "url"
    let auth ← fieldVal (decodeOption decodeProxyAuth) fs "auth"
    pure ⟨url, auth⟩
  | _ => none

/-- The external `time` crate codec for `OffsetDateTime`, modelled as the
instant itself. -/
def encodeDateTime (t : OffsetDateTime) : JsonValue := .num t

def decodeDateTime : JsonValue → Option OffsetDateTime
  | .num n => some n
  | _ => none

/-- `Cookie` with its `#[serde(rename = ...)]` camelCase fields. -/
def encodeCookie (c : Cookie) : JsonValue :=
  .obj [("name", .str c.name), ("value", .str c.value),
        ("domain", encodeOption JsonValue.str c.domain),
        ("path", encodeOption JsonValue.str c.path),
        ("expires", encodeOption encodeDateTime c.expires),
        ("secure", encodeOption JsonValue.bool c.secure),
        ("httpOnly", encodeOption JsonValue.bool c.http_only),
        ("sameSite", encodeOption encodeSameSite c.same_site)]

def decodeCookie : JsonValue → Option Cookie
  | .obj fs => do
    let name ← fieldVal decodeStr fs "name"
    let value ← fieldVal decodeStr fs "value"
    let domain ← fieldVal (decodeOption decodeStr) fs "domain"
    let path ← fieldVal (decodeOption decodeStr) fs "path"
    let expires ← fieldVal (decodeOption decodeDateTime) fs "expires"
    let secure ← fieldVal (decodeOption decodeBool) fs "secure"
    let http_only ← fieldVal (decodeOption decodeBool) fs "httpOnly"
    let same_site ← fieldVal (decodeOption decodeSameSite) fs "sameSite"
    pure ⟨name, value, domain, path, expires, secure, http_only, same_site⟩
  | _ => none

/-! ## Errors (`src/error.rs`, as used by `header.rs` and `response.rs`) -/

/-- `RelayError`: the Network and Parse kinds, each carrying a message and
an optional underlying cause string. -/
inductive RelayError where
  | network (message : String) (cause : Option String)
  | parse (message : String) (cause : Option String)
deriving DecidableEq, Repr

/-- Whether a string occurs verbatim inside the error value (its message
or its cause). -/
def RelayError.mentions (e : RelayError) (s : String) : Bool :=
  match e with
  | .network m c | .parse m c =>
    decide (s.toList <:+: m.toList) ||
      (match c with
       | some cs => decide (s.toList <:+: cs.toList)
       | none => false)

/-! ## Header aggregator (`src/header.rs`)

The curl handle is abstracted as an `Engine` deciding which header lines
(or full lists) it rejects and with what cause; the installed header list
is the explicit state. `List::append` failures and `http_headers` failures
are engine rejections. -/

/-- The transport engine's rejection behavior: `appendRejects line` is the
cause string when the engine rejects appending `line` to a list, and
`setRejects lines` the cause when it rejects installing the full list. -/
structure Engine where
  appendRejects : String → Option String
  setRejects : List String → Option String

/-- The `format!` of one header line in `add_headers`. -/
def formatHeaderLine (key value : String) : String := key ++ ": " ++ value

/-- All lines built by the nested loops of `add_headers`, in order: one
emission per value of each key. -/
def buildHeaderLines (headers : List (String × List String)) : List String :=
  headers.flatMap (fun p => p.2.map (formatHeaderLine p.1))

/-- The append loop of `add_headers`: stops at the first rejected line with
a Network error of message "Failed to append header". -/
def appendHeaderLines (eng : Engine) : List String → Except RelayError Unit
  | [] => .ok ()
  | line :: rest =>
    match eng.appendRejects line with
    | some c => .error (.network "Failed to append header" (some c))
    | none => appendHeaderLines eng rest

/-- `HeadersBuilder::add_headers`: build the line list, then install it in
a single replacing `http_headers` call; returns the new installed list. -/
def add_headers (eng : Engine) (headers : Option (List (String × List String)))
    (installed : Option (List String)) : Except RelayError (Option (List String)) :=
  match headers with
  | Option.none => .ok installed
  | Option.some hs =>
    let lines := buildHeaderLines hs
    match appendHeaderLines eng lines with
    | .error e => .error e
    | .ok _ =>
      match eng.setRejects lines with
      | some c => .error (.network "Failed to set headers" (some c))
      | none => .ok (some lines)

/-- `HeadersBuilder::add_content_type`: build the single line
`"Content-Type: <value>"` and install it in one replacing call. -/
def add_content_type (eng : Engine) (content_type : String)
    (installed : Option (List String)) : Except RelayError (Option (List String)) :=
  let header := "Content-Type: " ++ content_type
  match eng.appendRejects header with
  | some c => .error (.network "Failed to set content type" (some c))
  | none =>
    match eng.setRejects [header] with
    | some c => .error (.network "Failed to set content type header" (some c))
    | none => .ok (some [header])

/-- The engine's installed-header state after a call: unchanged when the
call failed. -/
def stateAfter (r : Except RelayError (Option (List String)))
    (st : Option (List String)) : Option (List String) :=
  match r with
  | .ok s => s
  | .error _ => st

/-! ## Response builder (`src/response.rs`) -/

/-- `TimingInfo` (epoch milliseconds, `u64` fields). -/
structure TimingInfo where
  start : Nat
  «end» : Nat
deriving DecidableEq, Repr

/-- `SizeInfo` (bytes, `u64` fields). -/
structure SizeInfo where
  headers : Nat
  body : Nat
  total : Nat
deriving DecidableEq, Repr

/-- `ResponseMeta`. -/
structure ResponseMeta where
  timing : TimingInfo
  size : SizeInfo
deriving DecidableEq, Repr

/-- `ResponseBody` as assembled by `ResponseHandler::build`. -/
structure ResponseBody where
  body : List Byte
  media_type : MediaType
deriving DecidableEq, Repr

/-- The `Response` value assembled by `ResponseHandler::build`. -/
structure Response where
  id : Int
  status : Nat
  status_text : String
  version : Protocol
  headers : List (String × List String)
  cookies : Option (List Cookie)
  meta : ResponseMeta
  body : ResponseBody
deriving DecidableEq, Repr

/-- `ResponseHandler`: the accumulated raw transfer results. `SystemTime`
timestamps are embedded as signed milliseconds relative to the epoch. -/
structure ResponseHandler where
  id : Int
  headers : List (String × List String)
  body : List Byte
  status : Nat
  header_size : Nat
  start_time : Int
  end_time : Int
  version : Protocol
deriving DecidableEq, Repr

/-- Rust `str::starts_with`, as character-list prefix (equivalent to the
byte-prefix test on UTF-8 strings), kept executable. -/
def strStartsWith (s pre : String) : Bool := pre.toList.isPrefixOf s.toList

/-- `HashMap::get`: exact (case-sensitive) key lookup. -/
def hashMapGet (m : List (String × α)) (key : String) : Option α :=
  (m.find? (fun p => p.1 == key)).map (fun p => p.2)

/-- The strum display strings used via `as_ref()` in
`determine_media_type` (identical to the wire spellings). -/
def mediaTypeStr : MediaType → String
  | .TextPlain => "text/plain"
  | .TextHtml => "text/html"
  | .TextCss => "text/css"
  | .TextCsv => "text/csv"
  | .Json => "application/json"
  | .JsonLd => "application/ld+json"
  | .Xml => "application/xml"
  | .TextXml => "text/xml"
  | .FormUrlEncoded => "application/x-www-form-urlencoded"
  | .MultipartFormData => "multipart/form-data"
  | .OctetStream => "application/octet-stream"
  | .Other => "Other"

/-- The `starts_with` cascade of `determine_media_type` applied to a
present Content-Type header value. -/
def classifyContentType (content_type : String) : MediaType :=
  if strStartsWith content_type (mediaTypeStr .TextPlain) then .TextPlain
  else if strStartsWith content_type (mediaTypeStr .TextHtml) then .TextHtml
  else if strStartsWith content_type (mediaTypeStr .TextCss) then .TextCss
  else if strStartsWith content_type (mediaTypeStr .TextCsv) then .TextCsv
  else if strStartsWith content_type (mediaTypeStr .Json) then .Json
  else if strStartsWith content_type (mediaTypeStr .JsonLd) then .JsonLd
  else if strStartsWith content_type (mediaTypeStr .Xml) then .Xml
  else if strStartsWith content_type (mediaTypeStr .TextXml) then .TextXml
  else if strStartsWith content_type (mediaTypeStr .FormUrlEncoded) then .FormUrlEncoded
  else if strStartsWith content_type (mediaTypeStr .MultipartFormData) then .MultipartFormData
  else if strStartsWith content_type (mediaTypeStr .OctetStream) then .OctetStream
  else .TextPlain

/-- `ResponseHandler::determine_media_type`:
`headers.get("Content-Type").and_then(first).map(classify).unwrap_or(TextPlain)`. -/
def determine_media_type (headers : List (String × List String)) : MediaType :=
  match (hashMapGet headers "Content-Type").bind List.head? with
  | some content_type => classifyContentType content_type
  | none => .TextPlain

/-- `SystemTime::duration_since(UNIX_EPOCH).as_millis()`: fails exactly
when the timestamp precedes the epoch (the error string is the standard
library's `SystemTimeError` display). -/
def epochMillis (t : Int) : Except String Nat :=
  if t < 0 then .error "second time provided was later than self"
  else .ok t.toNat

/-- `ResponseHandler::calculate_timing`: both timestamps converted to epoch
milliseconds; `as u64` wraps the count modulo `2 ^ 64`; a pre-epoch
timestamp becomes a Parse error. -/
def calculate_timing (start_time end_time : Int) : Except RelayError TimingInfo :=
  match epochMillis start_time with
  | .error e => .error (.parse "Failed to get start time" (some e))
  | .ok start_ms =>
    match epochMillis end_time with
    | .error e => .error (.parse "Failed to get end time" (some e))
    | .ok end_ms => .ok { start := start_ms % 2 ^ 64, «end» := end_ms % 2 ^ 64 }

/-- The canonical reason phrases of `http::StatusCode::canonical_reason`
(the entries relevant here; codes outside the table yield `none`, printed
as `<unknown status code>`). -/
def canonicalReason (code : Nat) : Option String :=
  match code with
  | 100 => some "Continue"
  | 101 => some "Switching Protocols"
  | 200 => some "OK"
  | 201 => some "Created"
  | 202 => some "Accepted"
  | 204 => some "No Content"
  | 206 => some "Partial Content"
  | 301 => some "Moved Permanently"
  | 302 => some "Found"
  | 303 => some "See Other"
  | 304 => some "Not Modified"
  | 307 => some "Temporary Redirect"
  | 308 => some "Permanent Redirect"
  | 400 => some "Bad Request"
  | 401 => some "Unauthorized"
  | 403 => some "Forbidden"
  | 404 => some "Not Found"
  | 405 => some "Method Not Allowed"
  | 408 => some "Request Timeout"
  | 409 => some "Conflict"
  | 410 => some "Gone"
  | 429 => some "Too Many Requests"
  | 500 => some "Internal Server Error"
  | 501 => some "Not Implemented"
  | 502 => some "Bad Gateway"
  | 503 => some "Service Unavailable"
  | 504 => some "Gateway Timeout"
  | _ => none

/-- `http::StatusCode`'s `Display`, used by `self.status.to_string()`:
the numeric code followed by the canonical reason. -/
def statusDisplay (code : Nat) : String :=
  toString code ++ " " ++ ((canonicalReason code).getD "<unknown status code>")

/-- `ResponseHandler::build`: classify the media type, compute timing
(fallible), compute sizes (`u64` addition wraps modulo `2 ^ 64`), and
assemble the `Response`. Consuming `self` is Rust's static single-use
enforcement and has no value-level counterpart here. -/
def build (h : ResponseHandler) : Except RelayError Response :=
  let media_type := determine_media_type h.headers
  match calculate_timing h.start_time h.end_time with
  | .error e => .error e
  | .ok timing =>
    let size : SizeInfo :=
      { headers := h.header_size
        body := h.body.length
        total := (h.header_size + h.body.length) % 2 ^ 64 }
    .ok { id := h.id
          status := h.status
          status_text := statusDisplay h.status
          version := h.version
          headers := h.headers
          cookies := none
          meta := { timing := timing, size := size }
          body := { body := h.body, media_type := media_type } }

/-! ## Spec-side definitions (for refinement comparison) -/

/-- The `MediaType` catalog in the spec's fixed priority order (§4.3). -/
def mediaCatalog : List MediaType :=
  [.TextPlain, .TextHtml, .TextCss, .TextCsv, .Json, .JsonLd, .Xml,
   .TextXml, .FormUrlEncoded, .MultipartFormData, .OctetStream]

/-- Modelled from the spec: classification returns the first catalog entry
whose canonical string is a prefix of the header value, else `TextPlain`. -/
def specClassify (content_type : String) : MediaType :=
  (mediaCatalog.find? (fun m => strStartsWith content_type (mediaTypeStr m))).getD .TextPlain

/-! ## Concrete evaluation inputs -/

/-- A concrete handler: 37-byte body, header size 120, timestamps 1000 and
1250 epoch ms. -/
def handlerA : ResponseHandler :=
  { id := 7
    headers := [("Content-Type", ["application/json; charset=utf-8"])]
    body := List.replicate 37 (0 : Byte)
    status := 200
    header_size := 120
    start_time := 1000
    end_time := 1250
    version := .Http11 }

/-- The response `build handlerA` produces. -/
def responseA : Response :=
  { id := 7
    status := 200
    status_text := "200 OK"
    version := .Http11
    headers := [("Content-Type", ["application/json; charset=utf-8"])]
    cookies := none
    meta := { timing := { start := 1000, «end» := 1250 }
              size := { headers := 120, body := 37, total := 157 } }
    body := { body := List.replicate 37 (0 : Byte), media_type := .Json } }

/-- A second concrete handler: empty body, status 404. -/
def handlerB : ResponseHandler :=
  { id := 42
    headers := []
    body := []
    status := 404
    header_size := 0
    start_time := 0
    end_time := 5
    version := .Http2 }

/-- The response `build handlerB` produces. -/
def responseB : Response :=
  { id := 42
    status := 404
    status_text := "404 Not Found"
    version := .Http2
    headers := []
    cookies := none
    meta := { timing := { start := 0, «end» := 5 }
              size := { headers := 0, body := 0, total := 0 } }
    body := { body := [], media_type := .TextPlain } }

/-! ## Round-trip lemmas for the taxonomy codecs -/

theorem protocol_rt (v : Protocol) : decodeProtocol (encodeProtocol v) = some v := by
  cases v <;> rfl

theorem mediaType_rt (v : MediaType) : decodeMediaType (encodeMediaType v) = some v := by
  cases v <;> rfl

theorem digestAlgorithm_rt (v : DigestAlgorithm) :
    decodeDigestAlgorithm (encodeDigestAlgorithm v) = some v := by
  cases v <;> rfl

theorem digestQop_rt (v : DigestQop) : decodeDigestQop (encodeDigestQop v) = some v := by
  cases v <;> rfl

theorem sameSite_rt (v : SameSite) : decodeSameSite (encodeSameSite v) = some v := by
  cases v <;> rfl

theorem byte_rt (b : Byte) : decodeByte (encodeByte b) = some b := by
  have h1 : (0 : Int) ≤ (b.val : Int) := Int.ofNat_nonneg _
  have h2 : ((b.val : Int)) < 256 := by exact_mod_cast b.isLt
  simp [encodeByte, decodeByte, h1, h2]

theorem mapOption_map_rt (dec : JsonValue → Option α) (enc : α → JsonValue)
    (h : ∀ a, dec (enc a) = some a) (xs : List α) :
    mapOption dec (xs.map enc) = some xs := by
  induction xs with
  | nil => rfl
  | cons x xs ih => simp [mapOption, h, ih]

theorem list_rt (dec : JsonValue → Option α) (enc : α → JsonValue)
    (h : ∀ a, dec (enc a) = some a) (xs : List α) :
    decodeList dec (encodeList enc xs) = some xs := by
  simp [encodeList, decodeList, mapOption_map_rt dec enc h]

theorem mapOption_pairs_rt (dec : JsonValue → Option β) (enc : β → JsonValue)
    (h : ∀ b, dec (enc b) = some b) (m : List (String × β)) :
    mapOption (fun p => (dec p.2).map (fun b => (p.1, b)))
      (m.map (fun p => (p.1, enc p.2))) = some m := by
  induction m with
  | nil => rfl
  | cons p m ih =>
    obtain ⟨k, v⟩ := p
    simp [mapOption, h, ih]

theorem strMap_rt (dec : JsonValue → Option β) (enc : β → JsonValue)
    (h : ∀ b, dec (enc b) = some b) (m : List (String × β)) :
    decodeStrMap dec (encodeStrMap enc m) = some m := by
  simp [encodeStrMap, decodeStrMap, mapOption_pairs_rt dec enc h]

theorem listByte_rt (xs : List Byte) :
    decodeList decodeByte (encodeList encodeByte xs) = some xs :=
  list_rt _ _ byte_rt xs

theorem listListByte_rt (xs : List (List Byte)) :
    decodeList (decodeList decodeByte)
      (encodeList (encodeList encodeByte) xs) = some xs :=
  list_rt _ _ listByte_rt xs

theorem optStr_rt (o : Option String) :
    decodeOption decodeStr (encodeOption JsonValue.str o) = some o := by
  cases o <;> rfl

theorem optBool_rt (o : Option Bool) :
    decodeOption decodeBool (encodeOption JsonValue.bool o) = some o := by
  cases o <;> rfl

theorem optDateTime_rt (o : Option OffsetDateTime) :
    decodeOption decodeDateTime (encodeOption encodeDateTime o) = some o := by
  cases o <;> rfl

theorem optSameSite_rt (o : Option SameSite) :
    decodeOption decodeSameSite (encodeOption encodeSameSite o) = some o := by
  cases o with
  | none => rfl
  | some a => cases a <;> rfl

theorem optDigestAlgorithm_rt (o : Option DigestAlgorithm) :
    decodeOption decodeDigestAlgorithm (encodeOption encodeDigestAlgorithm o) = some o := by
  cases o with
  | none => rfl
  | some a => cases a <;> rfl

theorem optDigestQop_rt (o : Option DigestQop) :
    decodeOption decodeDigestQop (encodeOption encodeDigestQop o) = some o := by
  cases o with
  | none => rfl
  | some a => cases a <;> rfl

theorem formValue_rt (v : FormValue) : decodeFormValue (encodeFormValue v) = some v := by
  cases v with
  | Text s => rfl
  | File filename ct data =>
    simp [encodeFormValue, decodeFormValue, fieldVal, lookupField, List.find?,
      mediaType_rt, listByte_rt, decodeStr]

theorem listFormValue_rt (xs : List FormValue) :
    decodeList decodeFormValue (encodeList encodeFormValue xs) = some xs :=
  list_rt _ _ formValue_rt xs

theorem formData_rt (m : FormData) :
    decodeStrMap (decodeList decodeFormValue)
      (encodeStrMap (encodeList encodeFormValue) m) = some m :=
  strMap_rt _ _ listFormValue_rt m

theorem strStrMap_rt (m : List (String × String)) :
    decodeStrMap decodeStr (encodeStrMap JsonValue.str m) = some m :=
  strMap_rt decodeStr JsonValue.str (fun _ => rfl) m

theorem contentType_rt (v : ContentType) :
    decodeContentType (encodeContentType v) = some v := by
  cases v <;>
    simp [encodeContentType, decodeContentType, fieldVal, lookupField, List.find?,
      mediaType_rt, listByte_rt, formData_rt, strStrMap_rt, optStr_rt, decodeStr]

theorem authType_rt (v : AuthType) : decodeAuthType (encodeAuthType v) = some v := by
  cases v <;>
    simp [encodeAuthType, decodeAuthType, fieldVal, lookupField, List.find?,
      optStr_rt, optDigestAlgorithm_rt, optDigestQop_rt, decodeStr]

theorem certType_rt (v : CertificateType) :
    decodeCertificateType (encodeCertificateType v) = some v := by
  cases v <;>
    simp [encodeCertificateType, decodeCertificateType, fieldVal, lookupField,
      List.find?, listByte_rt, decodeStr]

theorem optCertType_rt (o : Option CertificateType) :
    decodeOption decodeCertificateType (encodeOption encodeCertificateType o) = some o := by
  cases o with
  | none => rfl
  | some a =>
    have h := certType_rt a
    cases he : encodeCertificateType a <;>
      simp_all [encodeOption, decodeOption, encodeCertificateType]
    · cases a <;> simp_all [encodeCertificateType]

theorem optListListByte_rt (o : Option (List (List Byte))) :
    decodeOption (decodeList (decodeList decodeByte))
      (encodeOption (encodeList (encodeList encodeByte)) o) = some o := by
  cases o with
  | none => rfl
  | some a => simp [encodeOption, decodeOption, encodeList, decodeList,
      mapOption_map_rt _ _ listByte_rt]

theorem certConfig_rt (v : CertificateConfig) :
    decodeCertificateConfig (encodeCertificateConfig v) = some v := by
  simp [encodeCertificateConfig, decodeCertificateConfig, fieldVal, lookupField,
    List.find?, optCertType_rt, optListListByte_rt]

theorem optCertConfig_rt (o : Option CertificateConfig) :
    decodeOption decodeCertificateConfig (encodeOption encodeCertificateConfig o) = some o := by
  cases o with
  | none => rfl
  | some a =>
    have h := certConfig_rt a
    simp_all [encodeOption, decodeOption, encodeCertificateConfig]

theorem securityConfig_rt (v : SecurityConfig) :
    decodeSecurityConfig (encodeSecurityConfig v) = some v := by
  simp [encodeSecurityConfig, decodeSecurityConfig, fieldVal, lookupField,
    List.find?, optCertConfig_rt, optBool_rt]

theorem proxyAuth_rt (v : ProxyAuth) : decodeProxyAuth (encodeProxyAuth v) = some v := by
  rfl

theorem optProxyAuth_rt (o : Option ProxyAuth) :
    decodeOption decodeProxyAuth (encodeOption encodeProxyAuth o) = some o := by
  cases o <;> rfl

theorem proxyConfig_rt (v : ProxyConfig) :
    decodeProxyConfig (encodeProxyConfig v) = some v := by
  simp [encodeProxyConfig, decodeProxyConfig, fieldVal, lookupField, List.find?,
    optProxyAuth_rt, decodeStr]

theorem cookie_rt (v : Cookie) : decodeCookie (encodeCookie v) = some v := by
  simp [encodeCookie, decodeCookie, fieldVal, lookupField, List.find?,
    optStr_rt, optBool_rt, optDateTime_rt, optSameSite_rt, decodeStr]

/-! ## Header aggregator lemmas -/

theorem appendHeaderLines_ok (eng : Engine) (lines : List String)
    (h : ∀ l ∈ lines, eng.appendRejects l = none) :
    appendHeaderLines eng lines = .ok () := by
  induction lines with
  | nil => rfl
  | cons line rest ih =>
    have hline := h line (by simp)
    simp [appendHeaderLines, hline]
    exact ih (fun l hl => h l (by simp [hl]))

theorem appendHeaderLines_err (eng : Engine) (pre : List String) (line : String)
    (post : List String) (c : String)
    (hpre : ∀ l ∈ pre, eng.appendRejects l = none)
    (hline : eng.appendRejects line = some c) :
    appendHeaderLines eng (pre ++ line :: post) =
      .error (.network "Failed to append header" (some c)) := by
  induction pre with
  | nil => simp [appendHeaderLines, hline]
  | cons p rest ih =>
    have hp := hpre p (by simp)
    simp [appendHeaderLines, hp]
    exact ih (fun l hl => hpre l (by simp [hl]))

/-! ## Claim theorems -/

/-- C1 (counterexample): the claim asserts that an unrecognized
`MediaType` string round-trips to the identical string, but the
`#[serde(other)]` fallback variant is a unit variant carrying no payload:
`"application/vnd.custom"` decodes to `Other`, which re-encodes as the
fixed string `"Other"`, not the original string. -/
theorem C1_counterexample :
    decodeMediaType (.str "application/vnd.custom") = some .Other ∧
    encodeMediaType .Other = .str "Other" ∧
    mediaTypeWireName .Other ≠ "application/vnd.custom" :=
  ⟨rfl, rfl, by decide⟩

/-- C1 (amended): for every constructible value of every taxonomy variant
type — Protocol, MediaType, ContentType, AuthType, CertificateType,
SecurityConfig, ProxyConfig, Cookie, SameSite, DigestAlgorithm,
DigestQop — `decode (encode v) = v`; an unrecognized `MediaType` string
decodes to the unit fallback `Other`, whose encoding is the fixed string
`"Other"` rather than the original string. -/
theorem C1_roundtrip :
    (∀ v : Protocol, decodeProtocol (encodeProtocol v) = some v) ∧
    (∀ v : MediaType, decodeMediaType (encodeMediaType v) = some v) ∧
    (∀ v : ContentType, decodeContentType (encodeContentType v) = some v) ∧
    (∀ v : AuthType, decodeAuthType (encodeAuthType v) = some v) ∧
    (∀ v : CertificateType, decodeCertificateType (encodeCertificateType v) = some v) ∧
    (∀ v : SecurityConfig, decodeSecurityConfig (encodeSecurityConfig v) = some v) ∧
    (∀ v : ProxyConfig, decodeProxyConfig (encodeProxyConfig v) = some v) ∧
    (∀ v : Cookie, decodeCookie (encodeCookie v) = some v) ∧
    (∀ v : SameSite, decodeSameSite (encodeSameSite v) = some v) ∧
    (∀ v : DigestAlgorithm, decodeDigestAlgorithm (encodeDigestAlgorithm v) = some v) ∧
    (∀ v : DigestQop, decodeDigestQop (encodeDigestQop v) = some v) :=
  ⟨protocol_rt, mediaType_rt, contentType_rt, authType_rt, certType_rt,
   securityConfig_rt, proxyConfig_rt, cookie_rt, sameSite_rt,
   digestAlgorithm_rt, digestQop_rt⟩

/-- C2 (counterexample): the claim asserts a case-insensitive match on the
header key, but `HashMap::get("Content-Type")` is exact: a mapping whose
only key is `"content-type"` with value `"application/json"` classifies as
`TextPlain`, although that value would classify as `Json` had the key been
matched case-insensitively. -/
theorem C2_counterexample :
    determine_media_type [("content-type", ["application/json"])] = .TextPlain ∧
    classifyContentType "application/json" = .Json ∧
    MediaType.TextPlain ≠ .Json :=
  ⟨rfl, rfl, by decide⟩

/-- C2 (amended): classification in `build()` reads the first value stored
under the exact, case-sensitive key `"Content-Type"`; when no pair carries
exactly that key — even if it is present under another capitalization —
the body is classified as `TextPlain`. -/
theorem C2_content_type_lookup :
    (∀ hs : List (String × List String),
      (∀ p ∈ hs, p.1 ≠ "Content-Type") →
      determine_media_type hs = .TextPlain) ∧
    (∀ (pre post : List (String × List String)) (v : String) (vs : List String),
      (∀ p ∈ pre, p.1 ≠ "Content-Type") →
      determine_media_type (pre ++ ("Content-Type", v :: vs) :: post) =
        classifyContentType v) := by
  constructor
  · intro hs h
    have hfind : hs.find? (fun p => p.1 == "Content-Type") = none := by
      rw [List.find?_eq_none]
      intro p hp
      simpa using h p hp
    simp [determine_media_type, hashMapGet, hfind]
  · intro pre post v vs h
    have hfind : pre.find? (fun p => p.1 == "Content-Type") = none := by
      rw [List.find?_eq_none]
      intro p hp
      simpa using h p hp
    simp [determine_media_type, hashMapGet, List.find?_append, hfind]

/-- C2 witness: applying the amended statement at concrete inputs. -/
theorem C2_witness :
    determine_media_type [("content-type", ["text/html"])] = .TextPlain ∧
    determine_media_type [("X-Early", ["1"]), ("Content-Type", ["text/html", "x"])] =
      classifyContentType "text/html" :=
  ⟨C2_content_type_lookup.1 [("content-type", ["text/html"])] (by decide),
   C2_content_type_lookup.2 [("X-Early", ["1"])] [] "text/html" ["x"] (by decide)⟩

/-- C3: with a Content-Type value present, classification is exactly the
first prefix match against the catalog in the fixed priority order
TextPlain, TextHtml, TextCss, TextCsv, Json, JsonLd, Xml, TextXml,
FormUrlEncoded, MultipartFormData, OctetStream, with TextPlain when none
matches; in particular `"application/json; charset=utf-8"` classifies as
Json and `"application/ld+json"` as JsonLd. -/
theorem C3_classification_order :
    (∀ s : String, classifyContentType s = specClassify s) ∧
    determine_media_type [("Content-Type", ["application/json; charset=utf-8"])] = .Json ∧
    determine_media_type [("Content-Type", ["application/ld+json"])] = .JsonLd := by
  refine ⟨?_, rfl, rfl⟩
  intro s
  simp only [classifyContentType, specClassify, mediaCatalog, List.find?]
  repeat' split <;> simp_all

/-- C10: classification never yields the open-world fallback: for every
header mapping, `determine_media_type` returns one of the eleven concrete
catalog entries and never `MediaType.Other`. -/
theorem C10_never_other (hs : List (String × List String)) :
    determine_media_type hs ∈ mediaCatalog ∧ determine_media_type hs ≠ .Other := by
  have hc : ∀ s, classifyContentType s ∈ mediaCatalog := by
    intro s
    unfold classifyContentType
    repeat' split
    all_goals decide
  have hne : ∀ s, classifyContentType s ≠ .Other := by
    intro s
    unfold classifyContentType
    repeat' split
    all_goals decide
  unfold determine_media_type
  cases (hashMapGet hs "Content-Type").bind List.head? with
  | none => exact ⟨by decide, by decide⟩
  | some ct => exact ⟨hc ct, hne ct⟩

/-- C4: for every successful `build()` whose sizes fit the `u64` width,
the `SizeInfo` satisfies `body = byte length of the captured buffer`,
`headers = the engine-supplied header byte size` (not recomputed), and
`total = headers + body`. -/
theorem C4_size_invariant (h : ResponseHandler) (r : Response)
    (hfit : h.header_size + h.body.length < 2 ^ 64)
    (hb : build h = .ok r) :
    r.meta.size.body = h.body.length ∧
    r.meta.size.headers = h.header_size ∧
    r.meta.size.total = r.meta.size.headers + r.meta.size.body := by
  unfold build at hb
  cases ht : calculate_timing h.start_time h.end_time with
  | error e => rw [ht] at hb; exact absurd hb (by simp)
  | ok timing =>
    rw [ht] at hb
    simp only [Except.ok.injEq] at hb
    subst hb
    refine ⟨rfl, rfl, ?_⟩
    exact Nat.mod_eq_of_lt hfit

/-- C4 witness: `header_size = 120` and a 37-byte body give
`total = 157`. -/
theorem C4_witness :
    responseA.meta.size.body = handlerA.body.length ∧
    responseA.meta.size.headers = handlerA.header_size ∧
    responseA.meta.size.total = responseA.meta.size.headers + responseA.meta.size.body :=
  C4_size_invariant handlerA responseA (by decide) (by rfl)

/-- C5 (counterexample): the claim asserts the epoch-millisecond values are
returned unchanged whenever both timestamps are expressible relative to the
epoch, but the `as u64` cast wraps: a timestamp of `2 ^ 64` milliseconds
after the epoch is expressible, yet `calculate_timing` returns 0 for it. -/
theorem C5_counterexample :
    calculate_timing (2 ^ 64) (2 ^ 64) = .ok ⟨0, 0⟩ ∧ (2 ^ 64 : Int) ≠ 0 :=
  ⟨rfl, by decide⟩

/-- C5 (amended): `calculate_timing` fails — with a Parse-category error —
exactly when at least one timestamp precedes the epoch; when both are
expressible and their millisecond counts fit in a `u64` it succeeds with
those start and end values unchanged, with no clamping or sign correction
even when end precedes start (the cast wraps modulo `2 ^ 64` otherwise). -/
theorem C5_timing_characterization (s e : Int) :
    ((∃ m c, calculate_timing s e = .error (.parse m c)) ↔ s < 0 ∨ e < 0) ∧
    (0 ≤ s → 0 ≤ e → s < 2 ^ 64 → e < 2 ^ 64 →
      calculate_timing s e = .ok ⟨s.toNat, e.toNat⟩) := by
  by_cases hs : s < 0 <;> by_cases he : e < 0 <;>
    simp [calculate_timing, epochMillis, hs, he] <;>
    intros <;> omega

/-- C5 witness: `start = 1000 ms`, `end = 1250 ms` give
`TimingInfo.start = 1000` and `TimingInfo.end = 1250` (duration 250). -/
theorem C5_witness : calculate_timing 1000 1250 = .ok ⟨1000, 1250⟩ :=
  (C5_timing_characterization 1000 1250).2 (by decide) (by decide) (by decide) (by decide)

/-- C6 (counterexample): the claim asserts the Network error's content
includes the offending key and value, but the error value carries only the
fixed message and the engine's cause; an engine rejecting the line
`"X-Key: zzz"` yields an error mentioning neither `"X-Key"` nor `"zzz"`
(they are only emitted to the diagnostic log). -/
theorem C6_counterexample :
    add_headers ⟨fun _ => some "illegal header byte", fun _ => none⟩
        (some [("X-Key", ["zzz"])]) none =
      .error (.network "Failed to append header" (some "illegal header byte")) ∧
    (RelayError.network "Failed to append header"
        (some "illegal header byte")).mentions "X-Key" = false ∧
    (RelayError.network "Failed to append header"
        (some "illegal header byte")).mentions "zzz" = false :=
  ⟨rfl, by decide, by decide⟩

/-- C6 (amended): if the engine rejects a formatted line, `add_headers`
fails with a Network-category error carrying the fixed message
"Failed to append header" and the engine's cause description; if the
engine rejects the full list, it fails with "Failed to set headers" and
the cause. The offending key and value are not part of the error value. -/
theorem C6_rejection_errors :
    (∀ (eng : Engine) (hs : List (String × List String))
        (st : Option (List String)) (pre : List String) (line : String)
        (post : List String) (c : String),
      buildHeaderLines hs = pre ++ line :: post →
      (∀ l ∈ pre, eng.appendRejects l = none) →
      eng.appendRejects line = some c →
      add_headers eng (some hs) st =
        .error (.network "Failed to append header" (some c))) ∧
    (∀ (eng : Engine) (hs : List (String × List String))
        (st : Option (List String)) (c : String),
      (∀ l ∈ buildHeaderLines hs, eng.appendRejects l = none) →
      eng.setRejects (buildHeaderLines hs) = some c →
      add_headers eng (some hs) st =
        .error (.network "Failed to set headers" (some c))) := by
  constructor
  · intro eng hs st pre line post c hsplit hpre hline
    have herr := appendHeaderLines_err eng pre line post c hpre hline
    simp [add_headers, hsplit, herr]
  · intro eng hs st c hok hset
    have hlines := appendHeaderLines_ok eng (buildHeaderLines hs) hok
    simp [add_headers, hlines, hset]

/-- C6 witness: applying the amended statement with concrete rejecting
engines. -/
theorem C6_witness :
    add_headers ⟨fun _ => some "bad byte", fun _ => none⟩
        (some [("X-Key", ["zzz"])]) none =
      .error (.network "Failed to append header" (some "bad byte")) ∧
    add_headers ⟨fun _ => none, fun _ => some "list rejected"⟩
        (some [("X-Key", ["zzz"])]) none =
      .error (.network "Failed to set headers" (some "list rejected")) :=
  ⟨C6_rejection_errors.1 ⟨fun _ => some "bad byte", fun _ => none⟩
      [("X-Key", ["zzz"])] none [] "X-Key: zzz" [] "bad byte" rfl
      (by simp) rfl,
   C6_rejection_errors.2 ⟨fun _ => none, fun _ => some "list rejected"⟩
      [("X-Key", ["zzz"])] none "list rejected" (fun l _ => rfl) rfl⟩

/-- C7: for every content-type string, engine behavior and prior installed
state, `add_content_type` leaves the engine in exactly the installed-header
state `add_headers` leaves it in when called with the singleton mapping
`{"Content-Type": [X]}`: both build the single line `"Content-Type: X"`
and install it in one replacing call. -/
theorem C7_content_type_equiv (eng : Engine) (ct : String)
    (st : Option (List String)) :
    stateAfter (add_content_type eng ct st) st =
      stateAfter (add_headers eng (some [("Content-Type", [ct])]) st) st := by
  have hline : buildHeaderLines [("Content-Type", [ct])] = ["Content-Type: " ++ ct] := rfl
  have hfmt : formatHeaderLine "Content-Type" ct = "Content-Type: " ++ ct := rfl
  simp only [add_content_type, add_headers, hline, hfmt, appendHeaderLines]
  cases h1 : eng.appendRejects ("Content-Type: " ++ ct) with
  | some c => simp [h1, stateAfter]
  | none =>
    simp only [h1, appendHeaderLines]
    cases h2 : eng.setRejects ["Content-Type: " ++ ct] with
    | some c => simp [h2, stateAfter]
    | none => simp [h2, stateAfter]

/-- C9: every successful `build()` assembles a `Response` whose id is the
handler's correlation id, whose cookies field is unset, and whose status
text is the canonical display text derived from the status code. -/
theorem C9_assembly (h : ResponseHandler) (r : Response)
    (hb : build h = .ok r) :
    r.id = h.id ∧ r.cookies = none ∧ r.status_text = statusDisplay h.status := by
  unfold build at hb
  cases ht : calculate_timing h.start_time h.end_time with
  | error e => rw [ht] at hb; exact absurd hb (by simp)
  | ok timing =>
    rw [ht] at hb
    simp only [Except.ok.injEq] at hb
    subst hb
    exact ⟨rfl, rfl, rfl⟩

/-- C9 witness: evaluating `build` on a concrete handler (status 404). -/
theorem C9_witness :
    responseB.id = handlerB.id ∧ responseB.cookies = none ∧
    responseB.status_text = statusDisplay handlerB.status :=
  C9_assembly handlerB responseB (by rfl)

end Relay
